import Mathlib

/-!
Shallow embedding of the behavior layer in src/script.js and proofs of the
specification claims about it.  Pure functions of the source become Lean
functions; stateful widget controllers become explicit state passing over
small state structures; the browser timer queue is modelled by explicit
event timelines (lists of timestamps).
-/

set_option maxHeartbeats 1000000

namespace Script

/-! ## Character classes of JavaScript regular expressions -/

/-- The JavaScript regular-expression whitespace class (the characters
matched by a backslash-s atom): space, tab, LF, VT, FF, CR, NBSP, Ogham
space mark, the U+2000 to U+200A range, LS, PS, NNBSP, MMSP, ideographic
space, and ZWNBSP.  `String.prototype.trim` strips exactly this set. -/
def isJsSpace (c : Char) : Bool :=
  c == ' ' || c == '\t' || c == '\n' || c == '\u000B' || c == '\u000C' ||
  c == '\u000D' || c == '\u00A0' || c == '\u1680' ||
  ('\u2000' ≤ c && c ≤ '\u200A') || c == '\u2028' || c == '\u2029' ||
  c == '\u202F' || c == '\u205F' || c == '\u3000' || c == '\uFEFF'

/-- `value.trim()` of JavaScript: strip the whitespace class from both ends. -/
def jsTrim (s : List Char) : List Char :=
  ((s.dropWhile isJsSpace).reverse.dropWhile isJsSpace).reverse

/-! ## A small regular-expression engine (Brzozowski derivatives)

The two regular expressions of `FormValidator.validateField` are anchored
whole-string patterns, so a derivative-based matcher gives their exact
test semantics. -/

/-- Regular expressions over characters, with character-class atoms. -/
inductive RE where
  | emptySet : RE
  | eps : RE
  | cls : (Char → Bool) → RE
  | cat : RE → RE → RE
  | alt : RE → RE → RE
  | star : RE → RE

/-- Does the regular expression accept the empty string? -/
def nullable : RE → Bool
  | .emptySet => false
  | .eps => true
  | .cls _ => false
  | .cat r s => nullable r && nullable s
  | .alt r s => nullable r || nullable s
  | .star _ => true

/-- Smart concatenation (keeps derivative terms small). -/
def mkCat : RE → RE → RE
  | .emptySet, _ => .emptySet
  | .eps, s => s
  | _, .emptySet => .emptySet
  | r, .eps => r
  | r, s => .cat r s

/-- Smart alternation (keeps derivative terms small). -/
def mkAlt : RE → RE → RE
  | .emptySet, s => s
  | r, .emptySet => r
  | r, s => .alt r s

/-- Brzozowski derivative of a regular expression by a character. -/
def deriv (c : Char) : RE → RE
  | .emptySet => .emptySet
  | .eps => .emptySet
  | .cls p => if p c then .eps else .emptySet
  | .cat r s =>
      if nullable r then mkAlt (mkCat (deriv c r) s) (deriv c s)
      else mkCat (deriv c r) s
  | .alt r s => mkAlt (deriv c r) (deriv c s)
  | .star r => mkCat (deriv c r) (.star r)

/-- Anchored whole-string match, as `regex.test` on a `^...$` pattern. -/
def reMatch (r : RE) (s : List Char) : Bool :=
  nullable (s.foldl (fun t c => deriv c t) r)

/-- A single literal character. -/
def reChar (c : Char) : RE := .cls (fun d => d == c)

/-- One or more repetitions, the `+` quantifier. -/
def rePlus (r : RE) : RE := .cat r (.star r)

/-- Zero or one repetition, the `?` quantifier. -/
def reOpt (r : RE) : RE := .alt .eps r

/-- At most `n` repetitions, the `{0,n}` quantifier. -/
def reUpTo : Nat → RE → RE
  | 0, _ => .eps
  | n + 1, r => .alt .eps (.cat r (reUpTo n r))

/-- The atom `[^\s@]` of the email pattern: not whitespace and not `@`. -/
def emailAtom : Char → Bool := fun c => !(isJsSpace c) && c != '@'

/-- The email pattern of `validateField`:
`^[^\s@]+@[^\s@]+\.[^\s@]+$`. -/
def emailRE : RE :=
  .cat (rePlus (.cls emailAtom))
    (.cat (reChar '@')
      (.cat (rePlus (.cls emailAtom))
        (.cat (reChar '.') (rePlus (.cls emailAtom)))))

/-- The phone pattern of `validateField`:
`^[+]?[1-9][0-9]{0,15}$` (a `+` sign option, a nonzero digit, then up to
fifteen digits). -/
def phoneRE : RE :=
  .cat (reOpt (reChar '+'))
    (.cat (.cls (fun c => '1' ≤ c && c ≤ '9'))
      (reUpTo 15 (.cls Char.isDigit)))

/-- `value.replace(/[\s\-\(\)]/g, ...)` with the empty string: drop
whitespace, hyphens and parentheses before the phone test. -/
def stripPhoneSeparators (s : List Char) : List Char :=
  s.filter (fun c => !(isJsSpace c || c == '-' || c == '(' || c == ')'))

/-! ## Form validation (`FormValidator`) -/

/-- The input types `validateField` distinguishes; every other control
behaves like `text` there. -/
inductive FieldType where
  | email : FieldType
  | tel : FieldType
  | text : FieldType
deriving DecidableEq

/-- A form field as `validateField` sees it: its raw value, its `type`,
whether it carries the `required` attribute, and whether the adjacent
error element (id `name-error`) exists in the document. -/
structure Field where
  value : List Char
  kind : FieldType
  required : Bool
  hasErrorElement : Bool
deriving DecidableEq

/-- The mutable display state of one field: the `error` class, the
`aria-invalid` attribute (absent or a string), and the adjacent error
element text and `visible` class. -/
structure FieldState where
  errorClass : Bool
  ariaInvalid : Option String
  errorText : String
  errorVisible : Bool
deriving DecidableEq

/-- A pristine field display state. -/
def initFieldState : FieldState :=
  { errorClass := false, ariaInvalid := none, errorText := "", errorVisible := false }

/-- `FormValidator.clearFieldError`: remove the `error` class and the
`aria-invalid` attribute; if the error element exists, empty it and hide it. -/
def clearFieldError (f : Field) (st : FieldState) : FieldState :=
  { st with
    errorClass := false
    ariaInvalid := none
    errorText := if f.hasErrorElement then "" else st.errorText
    errorVisible := if f.hasErrorElement then false else st.errorVisible }

/-- `FormValidator.showFieldError`: add the `error` class, set
`aria-invalid` to the string true; if the error element exists, put the
message in it and show it. -/
def showFieldError (f : Field) (st : FieldState) (message : String) : FieldState :=
  { st with
    errorClass := true
    ariaInvalid := some "true"
    errorText := if f.hasErrorElement then message else st.errorText
    errorVisible := if f.hasErrorElement then true else st.errorVisible }

/-- `FormValidator.validateField`: trim the value, reset the previous
error display, then run the required / email / phone checks in the
source's if-else chain; on failure show the message.  Returns the
validity flag and the updated display state. -/
def validateField (f : Field) (st : FieldState) : Bool × FieldState :=
  let value := jsTrim f.value
  let st1 := clearFieldError f st
  let res : Bool × String :=
    if f.required && value.isEmpty then
      (false, "This field is required.")
    else if f.kind == FieldType.email && !value.isEmpty then
      (if reMatch emailRE value then (true, "")
       else (false, "Please enter a valid email address."))
    else if f.kind == FieldType.tel && !value.isEmpty then
      (if reMatch phoneRE (stripPhoneSeparators value) then (true, "")
       else (false, "Please enter a valid phone number."))
    else (true, "")
  if res.1 then (true, st1) else (false, showFieldError f st1 res.2)

/-! Claim-side reading of the validation rules (C2): each rule with its
own full condition, selected in the stated priority order. -/

/-- Rule 1 of the claim: the field is required and its trimmed value is empty. -/
def ruleRequiredFails (f : Field) : Bool :=
  f.required && (jsTrim f.value).isEmpty

/-- Rule 2 of the claim: a non-empty email-typed field fails the email pattern. -/
def ruleEmailFails (f : Field) : Bool :=
  f.kind == FieldType.email && !(jsTrim f.value).isEmpty &&
    !(reMatch emailRE (jsTrim f.value))

/-- Rule 3 of the claim: a non-empty tel-typed field fails the digit pattern
after separators are stripped. -/
def ruleTelFails (f : Field) : Bool :=
  f.kind == FieldType.tel && !(jsTrim f.value).isEmpty &&
    !(reMatch phoneRE (stripPhoneSeparators (jsTrim f.value)))

/-- The first failing rule in the claimed priority order, with its message. -/
def firstFailingMessage (f : Field) : Option String :=
  if ruleRequiredFails f then some "This field is required."
  else if ruleEmailFails f then some "Please enter a valid email address."
  else if ruleTelFails f then some "Please enter a valid phone number."
  else none

/-! ## Form submission (`FormValidator.handleSubmit`) -/

/-- Outcome of the simulated asynchronous submission step.  In the source
the step is a fixed-delay placeholder for the real network call; the spec
treats the submission as resolving to success or rejecting with failure,
and the `try`/`catch` of `handleSubmit` is written for both outcomes. -/
inductive SubmitOutcome where
  | resolved : SubmitOutcome
  | rejected : SubmitOutcome
deriving DecidableEq

/-- Observable effects of `handleSubmit`, in execution order. -/
inductive SubmitEvent where
  | focusFirstInvalid : SubmitEvent
  | disableBtn : SubmitEvent
  | setBusyLabel : SubmitEvent
  | successBanner : SubmitEvent
  | resetForm : SubmitEvent
  | enableBtn : SubmitEvent
  | restoreLabel : SubmitEvent
  | errorBanner : SubmitEvent
deriving DecidableEq

/-- `FormValidator.handleSubmit` as its trace of observable effects:
validate every field; if any is invalid, focus the first invalid field and
abort.  Otherwise disable the submit button and show the busy label, run
the simulated submission, and on resolution show the success banner, reset
the form, re-enable the button and restore its label; on rejection the
`catch` block logs and shows the error banner, and nothing else. -/
def handleSubmit (fields : List Field) (outcome : SubmitOutcome) : List SubmitEvent :=
  let allValid := fields.all (fun f => (validateField f initFieldState).1)
  if !allValid then [.focusFirstInvalid]
  else
    [.disableBtn, .setBusyLabel] ++
      (match outcome with
        | .resolved => [.successBanner, .resetForm, .enableBtn, .restoreLabel]
        | .rejected => [.errorBanner])

/-- Replay a submission trace on the submit control: is the button
disabled once the trace is over? -/
def submitBtnDisabledAfter (events : List SubmitEvent) : Bool :=
  events.foldl (fun d e => match e with
    | .disableBtn => true
    | .enableBtn => false
    | _ => d) false

/-- How many times a submission trace re-enables the submit control. -/
def reenableCount (events : List SubmitEvent) : Nat :=
  events.count .enableBtn

/-! ## Timing utilities (`debounce`, `throttle`)

The browser timer queue is modelled explicitly: a run takes the ordered
list of invocation timestamps and the pending-timer slot, and returns the
timestamps at which the wrapped action executes.  A timer due at or
before the next invocation fires first (the platform runs a due timeout
task before a later event). -/

/-- `debounce(func, wait, immediate)` applied to a timeline of invocation
times.  The state is the `timeout` variable: `none` when unset or already
fired (the `later` callback nulls it), `some ft` when a timer is pending
to fire at time `ft`.  Each invocation clears the pending timer and
schedules a new one `wait` later; `callNow`, which is
`immediate && !timeout`, fires the action at the invocation itself; a
timer that fires runs the action only when `immediate` is false. -/
def debounceRun (wait : Nat) (immediate : Bool) : List Nat → Option Nat → List Nat
  | [], none => []
  | [], some ft => if immediate then [] else [ft]
  | t :: rest, none =>
      (if immediate then [t] else []) ++ debounceRun wait immediate rest (some (t + wait))
  | t :: rest, some ft =>
      if ft ≤ t then
        (if immediate then [] else [ft]) ++
          ((if immediate then [t] else []) ++ debounceRun wait immediate rest (some (t + wait)))
      else
        debounceRun wait immediate rest (some (t + wait))

/-- `throttle(func, limit)` applied to a timeline of invocation times.
The state is the `inThrottle` flag: `none` when clear, `some reset` when
set with the clearing timeout due at time `reset`.  A clear flag lets the
call run immediately and sets the flag for `limit`; otherwise the call is
dropped. -/
def throttleRun (limit : Nat) : List Nat → Option Nat → List Nat
  | [], _ => []
  | t :: rest, none => t :: throttleRun limit rest (some (t + limit))
  | t :: rest, some reset =>
      if reset ≤ t then t :: throttleRun limit rest (some (t + limit))
      else throttleRun limit rest (some reset)

/-! ## Viewport geometry (`isInViewport`) -/

/-- A bounding client rectangle.  Coordinates are rationals: the claims
here involve only exact linear arithmetic, which models the browser's
numbers faithfully at the inputs used. -/
structure Rect where
  top : ℚ
  bottom : ℚ
  left : ℚ
  right : ℚ

/-- `isInViewport(element, threshold)` on the element's rectangle and the
window dimensions: the source's four comparisons, verbatim. -/
def isInViewport (r : Rect) (windowHeight windowWidth threshold : ℚ) : Bool :=
  decide (r.top ≤ windowHeight * (1 - threshold)) &&
  decide (r.bottom ≥ windowHeight * threshold) &&
  decide (r.left ≤ windowWidth * (1 - threshold)) &&
  decide (r.right ≥ windowWidth * threshold)

/-- Length of the overlap of the segment from `a` to `b` with the segment
from `lo` to `hi` (negative when they are disjoint). -/
def axisOverlap (a b lo hi : ℚ) : ℚ := min b hi - max a lo

/-- The claim's reading of `isInViewport` (C8): the box overlaps the
viewport by at least the `threshold` fraction of its own extent on both
axes — the intersection-ratio sense in which the source uses thresholds
for its observers. -/
def overlapsByThresholdFraction (r : Rect) (windowHeight windowWidth threshold : ℚ) : Prop :=
  threshold * (r.bottom - r.top) ≤ axisOverlap r.top r.bottom 0 windowHeight ∧
  threshold * (r.right - r.left) ≤ axisOverlap r.left r.right 0 windowWidth

/-- The C8 claim at one input: `isInViewport` returns true exactly when
the overlap-fraction reading holds there. -/
def viewportClaimAt (r : Rect) (windowHeight windowWidth threshold : ℚ) : Prop :=
  isInViewport r windowHeight windowWidth threshold = true ↔
    overlapsByThresholdFraction r windowHeight windowWidth threshold

/-- Two closed segments, from `a` to `b` and from `lo` to `hi`, share a point. -/
def segmentsMeet (a b lo hi : ℚ) : Prop :=
  ∃ x : ℚ, a ≤ x ∧ x ≤ b ∧ lo ≤ x ∧ x ≤ hi

/-! ## FAQ accordion (`FAQ.toggleFAQ`) -/

/-- One FAQ item: the question's `aria-expanded` attribute (read as: the
attribute equals the string true) and the answer's `active` class. -/
structure FAQItem where
  ariaExpanded : Bool
  answerActive : Bool
deriving DecidableEq

/-- A collapsed item. -/
def collapsedItem : FAQItem := ⟨false, false⟩

/-- `FAQ.toggleFAQ` activating item `i`: read whether that item is open,
set every other item collapsed (clear the expanded attribute, remove the
active class), and toggle the activated item both ways. -/
def toggleFAQ (items : List FAQItem) (i : Nat) : List FAQItem :=
  let isOpen := (items.getD i collapsedItem).ariaExpanded
  (List.range items.length).map
    (fun j => if j = i then ⟨!isOpen, !isOpen⟩ else collapsedItem)

/-- A sequence of question activations. -/
def runToggles (items : List FAQItem) (acts : List Nat) : List FAQItem :=
  acts.foldl toggleFAQ items

/-- At most one item of the accordion is expanded. -/
def atMostOneExpanded (items : List FAQItem) : Prop :=
  items.countP (fun it => it.ariaExpanded) ≤ 1

/-! ## Navigation controller (mobile menu) -/

/-- Where keyboard focus sits, as far as the menu transitions move it. -/
inductive FocusTarget where
  | firstMobileLink : FocusTarget
  | menuButton : FocusTarget
  | elsewhere : FocusTarget
deriving DecidableEq

/-- The navigation state the menu transitions touch: the `isMenuOpen`
flag, the `active` classes of the panel and the button, the button's
`aria-expanded` attribute, the body's inline `overflow` style, and focus. -/
structure NavState where
  isMenuOpen : Bool
  menuActive : Bool
  btnActive : Bool
  btnAriaExpanded : String
  bodyOverflow : String
  focus : FocusTarget
deriving DecidableEq

/-- The page state before any transition: menu closed, no inline body
overflow style, focus wherever the user left it. -/
def initNavState : NavState :=
  { isMenuOpen := false, menuActive := false, btnActive := false,
    btnAriaExpanded := "false", bodyOverflow := "", focus := .elsewhere }

/-- `Navigation.openMobileMenu`.  `hasMobileLink` says whether the panel
contains a `.mobile-link` element — the page contract of the spec puts
the navigation links inside the panel; when one is present, focus moves
to the first of them, otherwise the source leaves focus where it was. -/
def openMobileMenu (hasMobileLink : Bool) (s : NavState) : NavState :=
  { isMenuOpen := true, menuActive := true, btnActive := true,
    btnAriaExpanded := "true", bodyOverflow := "hidden",
    focus := if hasMobileLink then .firstMobileLink else s.focus }

/-- `Navigation.closeMobileMenu`: clear the flag and the classes, restore
body scroll, and return focus to the menu button. -/
def closeMobileMenu (_s : NavState) : NavState :=
  { isMenuOpen := false, menuActive := false, btnActive := false,
    btnAriaExpanded := "false", bodyOverflow := "", focus := .menuButton }

/-- `Navigation.toggleMobileMenu`. -/
def toggleMobileMenu (hasMobileLink : Bool) (s : NavState) : NavState :=
  if s.isMenuOpen then closeMobileMenu s else openMobileMenu hasMobileLink s

/-- The three menu operations a user interaction sequence can trigger. -/
inductive NavOp where
  | openOp : NavOp
  | closeOp : NavOp
  | toggleOp : NavOp
deriving DecidableEq

/-- Run a sequence of menu operations. -/
def runNavOps (hasMobileLink : Bool) (s : NavState) (ops : List NavOp) : NavState :=
  ops.foldl (fun st op => match op with
    | .openOp => openMobileMenu hasMobileLink st
    | .closeOp => closeMobileMenu st
    | .toggleOp => toggleMobileMenu hasMobileLink st) s

/-! ## Lazy image loader (`LazyLoader.handleIntersect`) -/

/-- One intersection record delivered to the observer callback. -/
structure IOEntry where
  target : Nat
  isIntersecting : Bool
deriving DecidableEq

/-- Observer and loader state: the images currently observed, and the
list of images whose load has been started (with multiplicity). -/
structure LazyState where
  observed : List Nat
  loads : List Nat
deriving DecidableEq

/-- `LazyLoader.handleIntersect`: for each intersecting entry of the
batch, begin loading its image and unobserve it. -/
def handleIntersect (s : LazyState) (entries : List IOEntry) : LazyState :=
  entries.foldl (fun st e =>
    if e.isIntersecting then
      { observed := st.observed.erase e.target, loads := st.loads ++ [e.target] }
    else st) s

/-- A batch the observer can deliver in state `s`: the observer computes
at most one record per target per delivery, and only for targets it still
observes (`unobserve` stops all later deliveries for that target). -/
def batchValid (s : LazyState) (entries : List IOEntry) : Bool :=
  decide (entries.map (fun e => e.target)).Nodup &&
    entries.all (fun e => s.observed.contains e.target)

/-- A deliverable sequence of observer callbacks from state `s`. -/
def validBatches : LazyState → List (List IOEntry) → Bool
  | _, [] => true
  | s, b :: bs => batchValid s b && validBatches (handleIntersect s b) bs

/-- Run a sequence of observer callbacks. -/
def runBatches (s : LazyState) (bs : List (List IOEntry)) : LazyState :=
  bs.foldl handleIntersect s

/-! ## Helper lemmas -/

/-- Shifting the default through a cons when taking the last element. -/
theorem getLastD_shift {α : Type} (t c : α) (rest : List α) :
    (t :: rest).getLastD c = rest.getLastD t := by
  cases rest <;> rfl

/-- While calls keep arriving within the wait window, a trailing-edge
debounce only reschedules; the single action fires `wait` after the last
call. -/
theorem debounceRun_pending_trailing (wait : Nat) :
    ∀ (cs : List Nat) (c : Nat),
      List.Chain' (fun a b => a ≤ b ∧ b < a + wait) (c :: cs) →
      debounceRun wait false cs (some (c + wait)) = [cs.getLastD c + wait]
  | [], c, _ => by simp [debounceRun]
  | t :: rest, c, h => by
      rcases List.chain'_cons.mp h with ⟨⟨hle, hlt⟩, h2⟩
      have hne : ¬ (c + wait ≤ t) := by omega
      have ih := debounceRun_pending_trailing wait rest t h2
      rw [getLastD_shift]
      simpa [debounceRun, hne] using ih

/-- With `immediate` set, a pending-timer state absorbs every further call
of the burst without firing the action again. -/
theorem debounceRun_pending_leading (wait : Nat) :
    ∀ (cs : List Nat) (c : Nat),
      List.Chain' (fun a b => a ≤ b ∧ b < a + wait) (c :: cs) →
      debounceRun wait true cs (some (c + wait)) = []
  | [], _, _ => by simp [debounceRun]
  | t :: rest, c, h => by
      rcases List.chain'_cons.mp h with ⟨⟨hle, hlt⟩, h2⟩
      have hne : ¬ (c + wait ≤ t) := by omega
      have ih := debounceRun_pending_leading wait rest t h2
      simpa [debounceRun, hne] using ih

/-- Calls arriving while the throttle flag is still set are dropped. -/
theorem throttleRun_drops (limit : Nat) :
    ∀ (cs ds : List Nat) (reset : Nat), (∀ x ∈ cs, x < reset) →
      throttleRun limit (cs ++ ds) (some reset) = throttleRun limit ds (some reset)
  | [], _, _, _ => by simp
  | x :: rest, ds, reset, h => by
      have hx : x < reset := h x (by simp)
      have hne : ¬ (reset ≤ x) := by omega
      have ih := throttleRun_drops limit rest ds reset (fun y hy => h y (by simp [hy]))
      simpa [throttleRun, hne] using ih

/-- A duplicate-free list counts a predicate that only one value can
satisfy at most once. -/
theorem countP_le_one_of_unique {q : Nat → Bool} {i : Nat} (hq : ∀ x, q x = true → x = i) :
    ∀ l : List Nat, l.Nodup → l.countP q ≤ 1
  | [], _ => by simp
  | x :: xs, h => by
      rcases List.nodup_cons.mp h with ⟨hx, hxs⟩
      rw [List.countP_cons]
      by_cases hqx : q x = true
      · have hzero : xs.countP q = 0 := by
          rw [List.countP_eq_zero]
          intro y hy hqy
          have hyx : y = x := (hq y hqy).trans (hq x hqx).symm
          exact hx (hyx ▸ hy)
        simp [hzero, hqx]
      · have := countP_le_one_of_unique hq xs hxs
        simp [hqx]
        omega

/-- Any activation leaves at most one item expanded. -/
theorem toggleFAQ_atMostOne (items : List FAQItem) (i : Nat) :
    atMostOneExpanded (toggleFAQ items i) := by
  unfold atMostOneExpanded toggleFAQ
  rw [List.countP_map]
  refine countP_le_one_of_unique (i := i) ?_ _ (List.nodup_range _)
  intro x hx
  by_contra hne
  simp [Function.comp, hne, collapsedItem] at hx

/-- The item list after an in-range activation, position by position. -/
theorem toggleFAQ_getD (items : List FAQItem) (i j : Nat) (hj : j < items.length) :
    (toggleFAQ items i).getD j collapsedItem =
      (if j = i then ⟨!(items.getD i collapsedItem).ariaExpanded,
                      !(items.getD i collapsedItem).ariaExpanded⟩ else collapsedItem) := by
  unfold toggleFAQ
  rw [List.getD_eq_getElem?_getD, List.getElem?_map, List.getElem?_range hj,
    List.getD_eq_getElem?_getD]
  rfl

/-- Positions beyond the accordion read as collapsed. -/
theorem toggleFAQ_getD_out (items : List FAQItem) (i j : Nat) (hj : ¬ j < items.length) :
    (toggleFAQ items i).getD j collapsedItem = collapsedItem := by
  unfold toggleFAQ
  rw [List.getD_eq_getElem?_getD, List.getElem?_map]
  have : (List.range items.length)[j]? = none := by
    rw [List.getElem?_eq_none]
    simpa using hj
  rw [this]
  rfl

/-- The single-open property is preserved by every activation sequence. -/
theorem runToggles_atMostOne (acts : List Nat) :
    ∀ (s : List FAQItem), atMostOneExpanded s → atMostOneExpanded (runToggles s acts) := by
  induction acts with
  | nil => intro s h; exact h
  | cons a as ih =>
      intro s _
      exact ih (toggleFAQ s a) (toggleFAQ_atMostOne s a)

/-- The all-collapsed start state has no expanded item. -/
theorem replicate_collapsed_atMostOne (n : Nat) :
    atMostOneExpanded (List.replicate n collapsedItem) := by
  unfold atMostOneExpanded
  have : (List.replicate n collapsedItem).countP (fun it => it.ariaExpanded) = 0 := by
    rw [List.countP_eq_zero]
    intro a ha
    rw [List.eq_of_mem_replicate ha]
    simp [collapsedItem]
  omega

/-- The scroll-lock-iff-open invariant is preserved by every operation
sequence of the menu. -/
theorem runNavOps_lock_iff (hasMobileLink : Bool) (ops : List NavOp) :
    ∀ (s : NavState), (s.bodyOverflow = "hidden" ↔ s.isMenuOpen = true) →
      ((runNavOps hasMobileLink s ops).bodyOverflow = "hidden" ↔
        (runNavOps hasMobileLink s ops).isMenuOpen = true) := by
  induction ops with
  | nil => intro s h; exact h
  | cons op rest ih =>
      intro s h
      rcases op with _ | _ | _
      · exact ih (openMobileMenu hasMobileLink s) (by simp [openMobileMenu])
      · refine ih (closeMobileMenu s) ?_
        simp only [closeMobileMenu]
        constructor
        · intro hc; exact absurd hc (by decide)
        · intro hc; exact absurd hc (by simp)
      · by_cases hm : s.isMenuOpen
        · have hstep : runNavOps hasMobileLink s (NavOp.toggleOp :: rest) =
              runNavOps hasMobileLink (closeMobileMenu s) rest := by
            simp [runNavOps, toggleMobileMenu, hm]
          rw [hstep]
          refine ih (closeMobileMenu s) ?_
          simp only [closeMobileMenu]
          constructor
          · intro hc; exact absurd hc (by decide)
          · intro hc; exact absurd hc (by simp)
        · have hstep : runNavOps hasMobileLink s (NavOp.toggleOp :: rest) =
              runNavOps hasMobileLink (openMobileMenu hasMobileLink s) rest := by
            simp [runNavOps, toggleMobileMenu, hm]
          rw [hstep]
          exact ih (openMobileMenu hasMobileLink s) (by simp [openMobileMenu])

/-- One observer callback preserves the loader invariant: loads are
duplicate-free, observed targets are duplicate-free, and no loaded image
is still observed. -/
theorem handleIntersect_inv :
    ∀ (es : List IOEntry) (s : LazyState),
      s.loads.Nodup → s.observed.Nodup → (∀ x ∈ s.loads, x ∉ s.observed) →
      batchValid s es = true →
      ((handleIntersect s es).loads.Nodup ∧ (handleIntersect s es).observed.Nodup ∧
        (∀ x ∈ (handleIntersect s es).loads, x ∉ (handleIntersect s es).observed))
  | [], s, h1, h2, h3, _ => ⟨h1, h2, h3⟩
  | e :: rest, s, h1, h2, h3, hv => by
      have hv1 : (e.target :: rest.map (fun x => x.target)).Nodup ∧
          (e.target ∈ s.observed ∧ ∀ x ∈ rest, x.target ∈ s.observed) := by
        simpa [batchValid, List.elem_iff] using hv
      rcases hv1 with ⟨hnodup, hmem, hrest⟩
      rcases List.nodup_cons.mp hnodup with ⟨hnotin, hnodup2⟩
      by_cases hi : e.isIntersecting
      · have hstep : handleIntersect s (e :: rest) =
            handleIntersect ⟨s.observed.erase e.target, s.loads ++ [e.target]⟩ rest := by
          simp [handleIntersect, hi]
        rw [hstep]
        have hnew1 : (s.loads ++ [e.target]).Nodup := by
          rw [List.nodup_append]
          refine ⟨h1, List.nodup_singleton _, ?_⟩
          intro x hx hxx
          simp at hxx
          exact absurd hmem (hxx ▸ h3 x hx)
        have hnew2 : (s.observed.erase e.target).Nodup := h2.erase _
        have hnew3 : ∀ x ∈ s.loads ++ [e.target], x ∉ s.observed.erase e.target := by
          intro x hx
          rcases List.mem_append.mp hx with hx1 | hx2
          · intro hmem2
            exact h3 x hx1 (List.mem_of_mem_erase hmem2)
          · simp at hx2
            rw [hx2]
            exact h2.not_mem_erase
        have hvrest :
            batchValid ⟨s.observed.erase e.target, s.loads ++ [e.target]⟩ rest = true := by
          simp [batchValid, List.elem_iff]
          refine ⟨hnodup2, fun x hx => ?_⟩
          have hne : x.target ≠ e.target := by
            intro heq
            exact hnotin (heq ▸ List.mem_map_of_mem (fun y => y.target) hx)
          exact (List.mem_erase_of_ne hne).mpr (hrest x hx)
        exact handleIntersect_inv rest _ hnew1 hnew2 hnew3 hvrest
      · have hstep : handleIntersect s (e :: rest) = handleIntersect s rest := by
          simp [handleIntersect, hi]
        rw [hstep]
        have hvrest : batchValid s rest = true := by
          simp [batchValid, List.elem_iff]
          exact ⟨hnodup2, hrest⟩
        exact handleIntersect_inv rest s h1 h2 h3 hvrest

/-- Across every deliverable sequence of callbacks, the list of started
loads stays duplicate-free. -/
theorem runBatches_inv :
    ∀ (bs : List (List IOEntry)) (s : LazyState),
      s.loads.Nodup → s.observed.Nodup → (∀ x ∈ s.loads, x ∉ s.observed) →
      validBatches s bs = true →
      (runBatches s bs).loads.Nodup
  | [], _, h1, _, _, _ => h1
  | b :: bs, s, h1, h2, h3, hv => by
      have hv1 : batchValid s b = true ∧ validBatches (handleIntersect s b) bs = true := by
        simpa [validBatches] using hv
      have hinv := handleIntersect_inv b s h1 h2 h3 hv1.1
      have hstep : runBatches s (b :: bs) = runBatches (handleIntersect s b) bs := by
        simp [runBatches]
      rw [hstep]
      exact runBatches_inv bs _ hinv.1 hinv.2.1 hinv.2.2 hv1.2

/-- `validateField` computes exactly the first failing rule of the
claimed priority order, clearing the display when it passes and showing
that rule's message when it fails. -/
theorem validateField_eq_firstFailing (f : Field) (st : FieldState) :
    validateField f st =
      match firstFailingMessage f with
      | none => (true, clearFieldError f st)
      | some m => (false, showFieldError f (clearFieldError f st) m) := by
  rcases f with ⟨v, k, req, hasErr⟩
  unfold validateField firstFailingMessage ruleRequiredFails ruleEmailFails ruleTelFails
  cases k <;> cases req <;> cases hem : (jsTrim v).isEmpty <;>
    simp [hem] <;>
    first
      | rfl
      | (cases hm : reMatch emailRE (jsTrim v) <;> simp [hm])
      | (cases hm : reMatch phoneRE (stripPhoneSeparators (jsTrim v)) <;> simp [hm])

/-! ## Claim theorems -/

/-- C1: the claim says the submit control is re-enabled exactly once in
both the success outcome and the failure outcome.  Evaluating the
embedded `handleSubmit` on a form whose one email field is valid: the
resolved outcome disables the control and re-enables it exactly once, but
the rejected outcome produces no re-enable event at all — the `catch`
block only shows the error banner, so the trace ends with the submit
button still disabled.  This contradicts the claim (and the recoverable
retry the error message offers), so the failure path is a code bug. -/
theorem handleSubmit_reenable_eval :
    handleSubmit [⟨"user@example.com".toList, .email, true, true⟩] .resolved =
      [.disableBtn, .setBusyLabel, .successBanner, .resetForm, .enableBtn, .restoreLabel] ∧
    reenableCount (handleSubmit [⟨"user@example.com".toList, .email, true, true⟩] .resolved) = 1 ∧
    submitBtnDisabledAfter
      (handleSubmit [⟨"user@example.com".toList, .email, true, true⟩] .resolved) = false ∧
    handleSubmit [⟨"user@example.com".toList, .email, true, true⟩] .rejected =
      [.disableBtn, .setBusyLabel, .errorBanner] ∧
    reenableCount (handleSubmit [⟨"user@example.com".toList, .email, true, true⟩] .rejected) = 0 ∧
    submitBtnDisabledAfter
      (handleSubmit [⟨"user@example.com".toList, .email, true, true⟩] .rejected) = true := by
  decide

/-- C2: for every field, validation applies the rules in the fixed
priority order — required-and-empty, then the email pattern on a
non-empty email field, then the digit pattern on a non-empty tel field
after separator stripping — and the first failing rule alone determines
the outcome: the field is invalid, its message is placed in the adjacent
error element when that element exists, and the field is marked with the
`error` class and `aria-invalid` set to true; when no rule fails the
field is valid and the error display is cleared. -/
theorem validateField_priority_and_display (f : Field) (st : FieldState) :
    ((validateField f st).1 = true ↔ firstFailingMessage f = none) ∧
    (∀ msg, firstFailingMessage f = some msg →
      (validateField f st).1 = false ∧
      ((validateField f st).2).errorClass = true ∧
      ((validateField f st).2).ariaInvalid = some "true" ∧
      (f.hasErrorElement = true →
        ((validateField f st).2).errorText = msg ∧
        ((validateField f st).2).errorVisible = true)) ∧
    (firstFailingMessage f = none →
      ((validateField f st).2).errorClass = false ∧
      ((validateField f st).2).ariaInvalid = none) := by
  have key := validateField_eq_firstFailing f st
  cases hf : firstFailingMessage f with
  | none =>
      rw [hf] at key
      refine ⟨by simp [key], fun msg hmsg => by simp [hf] at hmsg, fun _ => ?_⟩
      simp [key, clearFieldError]
  | some m =>
      rw [hf] at key
      refine ⟨by simp [key], fun msg hmsg => ?_, fun hn => by simp [hf] at hn⟩
      have hm : msg = m := (Option.some.inj hmsg).symm
      subst hm
      refine ⟨by simp [key], by simp [key, showFieldError],
        by simp [key, showFieldError], ?_⟩
      intro herr
      simp [key, showFieldError, herr]

/-- Witness for C2: a required empty text field fails with the
required-field message shown. -/
theorem validateField_priority_and_display_witness :
    (validateField ⟨[], FieldType.text, true, true⟩ initFieldState).1 = false ∧
    ((validateField ⟨[], FieldType.text, true, true⟩ initFieldState).2).errorText =
      "This field is required." := by
  have h := (validateField_priority_and_display ⟨[], FieldType.text, true, true⟩
    initFieldState).2.1 "This field is required." (by decide)
  exact ⟨h.1, (h.2.2.2 rfl).1⟩

/-- C3: for every burst of one or more calls to a debounced function
without the leading option, consecutive calls closer together than the
wait window, the wrapped action executes exactly once, at the time the
wait window elapses after the last call of the burst. -/
theorem debounce_single_trailing_execution (wait : Nat) (c : Nat) (cs : List Nat)
    (h : List.Chain' (fun a b => a ≤ b ∧ b < a + wait) (c :: cs)) :
    debounceRun wait false (c :: cs) none = [cs.getLastD c + wait] := by
  have := debounceRun_pending_trailing wait cs c h
  simpa [debounceRun] using this

/-- Witness for C3: a burst at 0, 3, 6 with a 10ms window executes once, at 16. -/
theorem debounce_single_trailing_execution_witness :
    debounceRun 10 false [0, 3, 6] none = [16] := by
  have h := debounce_single_trailing_execution 10 0 [3, 6]
    (by norm_num [List.chain'_cons])
  simpa using h

/-- C10: for every burst of calls to a debounced function created with
the leading option set, only the leading call executes the action: the
run of the burst produces exactly one execution, at the first call, and
no trailing execution after the wait window elapses. -/
theorem debounce_leading_only_execution (wait : Nat) (c : Nat) (cs : List Nat)
    (h : List.Chain' (fun a b => a ≤ b ∧ b < a + wait) (c :: cs)) :
    debounceRun wait true (c :: cs) none = [c] := by
  have := debounceRun_pending_leading wait cs c h
  simp [debounceRun, this]

/-- Witness for C10: a burst at 0, 3, 6 with a 10ms window executes once, at 0. -/
theorem debounce_leading_only_execution_witness :
    debounceRun 10 true [0, 3, 6] none = [0] := by
  have h := debounce_leading_only_execution 10 0 [3, 6]
    (by norm_num [List.chain'_cons])
  simpa using h

/-- C4: for every burst of one or more calls to a throttled function
within one interval, the wrapped action executes exactly once: the first
call executes immediately and every later call inside the interval is
dropped; a next call at or after the end of the interval executes and
opens a new window in which further calls are dropped again. -/
theorem throttle_burst_single_execution (limit c t : Nat) (cs ds : List Nat)
    (hcs : ∀ x ∈ cs, c ≤ x ∧ x < c + limit) (ht : c + limit ≤ t)
    (hds : ∀ x ∈ ds, t ≤ x ∧ x < t + limit) :
    throttleRun limit (c :: cs) none = [c] ∧
    throttleRun limit (c :: cs ++ t :: ds) none = [c, t] := by
  have hcs2 : ∀ x ∈ cs, x < c + limit := fun x hx => (hcs x hx).2
  have hds2 : ∀ x ∈ ds, x < t + limit := fun x hx => (hds x hx).2
  constructor
  · have h1 : throttleRun limit (cs ++ []) (some (c + limit)) =
        throttleRun limit [] (some (c + limit)) := throttleRun_drops limit cs [] _ hcs2
    simp at h1
    simp [throttleRun, h1]
  · have h1 := throttleRun_drops limit cs (t :: ds) (c + limit) hcs2
    have h2 : throttleRun limit (ds ++ []) (some (t + limit)) =
        throttleRun limit [] (some (t + limit)) := throttleRun_drops limit ds [] _ hds2
    simp at h2
    simp [throttleRun, h1, ht, h2]

/-- Witness for C4: with a 10ms interval, the burst 0, 3, 6 runs once at
0, and a following call at 12 (with 15 dropped after it) opens a new
window. -/
theorem throttle_burst_single_execution_witness :
    throttleRun 10 [0, 3, 6] none = [0] ∧
    throttleRun 10 [0, 3, 6, 12, 15] none = [0, 12] := by
  have h := throttle_burst_single_execution 10 0 12 [3, 6] [15]
    (by norm_num) (by norm_num) (by norm_num)
  simpa using h

/-- C5: after activating question `i`, at most one FAQ item is expanded;
activating a collapsed item expands it (attribute and class both set) and
collapses every other item; activating the already-expanded item
collapses it together with all others; and along every activation
sequence from the all-collapsed start state, at most one item is ever
expanded. -/
theorem faq_single_open (items : List FAQItem) (i : Nat) (hi : i < items.length) :
    atMostOneExpanded (toggleFAQ items i) ∧
    ((items.getD i collapsedItem).ariaExpanded = false →
      (toggleFAQ items i).getD i collapsedItem = ⟨true, true⟩ ∧
      ∀ j, j ≠ i → (toggleFAQ items i).getD j collapsedItem = collapsedItem) ∧
    ((items.getD i collapsedItem).ariaExpanded = true →
      ∀ j, (toggleFAQ items i).getD j collapsedItem = collapsedItem) ∧
    ∀ (n : Nat) (acts : List Nat),
      atMostOneExpanded (runToggles (List.replicate n collapsedItem) acts) := by
  refine ⟨toggleFAQ_atMostOne items i, ?_, ?_, ?_⟩
  · intro hopen
    constructor
    · rw [toggleFAQ_getD items i i hi, if_pos rfl, hopen]
      rfl
    · intro j hj
      by_cases hjl : j < items.length
      · rw [toggleFAQ_getD items i j hjl, if_neg hj]
      · exact toggleFAQ_getD_out items i j hjl
  · intro hopen j
    by_cases hjl : j < items.length
    · rw [toggleFAQ_getD items i j hjl]
      by_cases hj : j = i
      · rw [if_pos hj, hopen]
        rfl
      · rw [if_neg hj]
    · exact toggleFAQ_getD_out items i j hjl
  · intro n acts
    exact runToggles_atMostOne acts _ (replicate_collapsed_atMostOne n)

/-- Witness for C5: activating the collapsed first item of a two-item
accordion whose second item is open leaves one expanded item — the first. -/
theorem faq_single_open_witness :
    atMostOneExpanded (toggleFAQ [⟨false, false⟩, ⟨true, true⟩] 0) ∧
    (toggleFAQ [⟨false, false⟩, ⟨true, true⟩] 0).getD 0 collapsedItem = ⟨true, true⟩ := by
  refine ⟨(faq_single_open [⟨false, false⟩, ⟨true, true⟩] 0 (by norm_num)).1, ?_⟩
  exact ((faq_single_open [⟨false, false⟩, ⟨true, true⟩] 0 (by norm_num)).2.1 (by decide)).1

/-- C6: when the menu panel contains a mobile link (the page contract),
every open transition sets the open flag, locks body scroll and moves
focus to the first link of the panel; every close transition clears the
flag, restores body scroll and returns focus to the menu button; and over
every sequence of open, close and toggle operations from the initial
closed state, the body scroll lock is active exactly when the menu is
open. -/
theorem menu_open_close_scroll_lock (hasMobileLink : Bool) (h : hasMobileLink = true) :
    (∀ s : NavState,
      (openMobileMenu hasMobileLink s).isMenuOpen = true ∧
      (openMobileMenu hasMobileLink s).bodyOverflow = "hidden" ∧
      (openMobileMenu hasMobileLink s).focus = FocusTarget.firstMobileLink ∧
      (openMobileMenu hasMobileLink s).btnAriaExpanded = "true") ∧
    (∀ s : NavState,
      (closeMobileMenu s).isMenuOpen = false ∧
      (closeMobileMenu s).bodyOverflow = "" ∧
      (closeMobileMenu s).focus = FocusTarget.menuButton ∧
      (closeMobileMenu s).btnAriaExpanded = "false") ∧
    (∀ ops : List NavOp,
      ((runNavOps hasMobileLink initNavState ops).bodyOverflow = "hidden" ↔
        (runNavOps hasMobileLink initNavState ops).isMenuOpen = true)) := by
  subst h
  refine ⟨fun s => ⟨rfl, rfl, by simp [openMobileMenu], rfl⟩,
          fun s => ⟨rfl, rfl, rfl, rfl⟩, fun ops => ?_⟩
  refine runNavOps_lock_iff true ops initNavState ?_
  simp only [initNavState]
  constructor
  · intro hc; exact absurd hc (by decide)
  · intro hc; exact absurd hc (by simp)

/-- Witness for C6: opening from the initial state moves focus to the
first mobile link, and after one toggle the lock-iff-open invariant holds. -/
theorem menu_open_close_scroll_lock_witness :
    (openMobileMenu true initNavState).focus = FocusTarget.firstMobileLink ∧
    ((runNavOps true initNavState [NavOp.toggleOp]).bodyOverflow = "hidden" ↔
      (runNavOps true initNavState [NavOp.toggleOp]).isMenuOpen = true) :=
  ⟨((menu_open_close_scroll_lock true rfl).1 initNavState).2.2.1,
   (menu_open_close_scroll_lock true rfl).2.2 [NavOp.toggleOp]⟩

/-- C7: starting with a duplicate-free set of observed lazy images and no
load begun, across every deliverable sequence of intersection callbacks —
each batch holding at most one record per target, only for still-observed
targets, since each image is unobserved the moment its load begins — each
image's load is started at most once, however often the callbacks report
it intersecting. -/
theorem lazy_load_at_most_once (images : List Nat) (bs : List (List IOEntry)) (img : Nat)
    (h0 : images.Nodup) (hv : validBatches ⟨images, []⟩ bs = true) :
    (runBatches ⟨images, []⟩ bs).loads.count img ≤ 1 := by
  have hnodup : (runBatches ⟨images, []⟩ bs).loads.Nodup :=
    runBatches_inv bs ⟨images, []⟩ (by simp) h0 (by simp) hv
  exact List.nodup_iff_count_le_one.mp hnodup img

/-- Witness for C7: two images, one intersecting in the first batch and
the other in the second; image 1 is loaded at most once. -/
theorem lazy_load_at_most_once_witness :
    (runBatches ⟨[1, 2], []⟩ [[⟨1, true⟩, ⟨2, false⟩], [⟨2, true⟩]]).loads.count 1 ≤ 1 :=
  lazy_load_at_most_once [1, 2] [[⟨1, true⟩, ⟨2, false⟩], [⟨2, true⟩]] 1
    (by decide) (by decide)

/-- C8 counterexample: the claim reads `isInViewport` as true exactly when
the box overlaps the viewport by at least the threshold fraction on both
axes.  A 10 by 10 box at the top-left corner of a 1000 by 1000 viewport
with threshold one half is fully visible — it overlaps by its whole
extent on both axes — yet `isInViewport` returns false, because the
source actually tests the four corner comparisons against the inset
viewport. -/
theorem isInViewport_claim_counterexample :
    ¬ viewportClaimAt ⟨0, 10, 0, 10⟩ 1000 1000 (1 / 2) := by
  intro h
  have hright : overlapsByThresholdFraction ⟨0, 10, 0, 10⟩ 1000 1000 (1 / 2) := by
    constructor <;>
      · show (1 : ℚ) / 2 * _ ≤ axisOverlap _ _ _ _
        simp [axisOverlap]
        norm_num
  have hleft := h.mpr hright
  simp only [isInViewport, Bool.and_eq_true, decide_eq_true_eq] at hleft
  norm_num at hleft

/-- C8 amended: for a proper box, a nonnegative viewport and a threshold
of at most one half, `isInViewport` returns true exactly when the box
intersects, on each axis, the viewport segment inset by the threshold
fraction of the viewport extent on both sides; the function is pure. -/
theorem isInViewport_inset_intersection (r : Rect) (H W θ : ℚ)
    (hr1 : r.top ≤ r.bottom) (hr2 : r.left ≤ r.right)
    (_hθ0 : 0 ≤ θ) (hθ : θ ≤ 1 / 2) (hH : 0 ≤ H) (hW : 0 ≤ W) :
    (isInViewport r H W θ = true ↔
      (segmentsMeet r.top r.bottom (θ * H) ((1 - θ) * H) ∧
       segmentsMeet r.left r.right (θ * W) ((1 - θ) * W))) := by
  have hHmid : θ * H ≤ (1 - θ) * H := by nlinarith
  have hWmid : θ * W ≤ (1 - θ) * W := by nlinarith
  simp only [isInViewport, Bool.and_eq_true, decide_eq_true_eq, ge_iff_le]
  constructor
  · rintro ⟨⟨⟨h1, h2⟩, h3⟩, h4⟩
    constructor
    · refine ⟨max r.top (θ * H), le_max_left _ _, ?_, le_max_right _ _, ?_⟩
      · exact max_le hr1 (by linarith)
      · exact max_le (by linarith) hHmid
    · refine ⟨max r.left (θ * W), le_max_left _ _, ?_, le_max_right _ _, ?_⟩
      · exact max_le hr2 (by linarith)
      · exact max_le (by linarith) hWmid
  · rintro ⟨⟨x, hx1, hx2, hx3, hx4⟩, ⟨y, hy1, hy2, hy3, hy4⟩⟩
    refine ⟨⟨⟨by linarith, by linarith⟩, by linarith⟩, by linarith⟩

/-- Witness for C8: the full-viewport box at threshold one quarter is in
view, so its vertical segment meets the inset segment. -/
theorem isInViewport_inset_intersection_witness :
    segmentsMeet (0 : ℚ) 1000 ((1 / 4) * 1000) ((1 - 1 / 4) * 1000) := by
  have h := (isInViewport_inset_intersection ⟨0, 1000, 0, 1000⟩ 1000 1000 (1 / 4)
    (by norm_num) (by norm_num) (by norm_num) (by norm_num) (by norm_num)
    (by norm_num)).mp (by norm_num [isInViewport])
  exact h.1

/-- C9: an email-typed field with value not-an-email fails validation and
shows the invalid-email message in the adjacent error element, and the
same field with value user at example dot com passes. -/
theorem validateField_email_examples :
    (validateField ⟨"not-an-email".toList, .email, false, true⟩ initFieldState).1 = false ∧
    ((validateField ⟨"not-an-email".toList, .email, false, true⟩ initFieldState).2).errorText =
      "Please enter a valid email address." ∧
    ((validateField ⟨"not-an-email".toList, .email, false, true⟩ initFieldState).2).errorVisible
      = true ∧
    (validateField ⟨"user@example.com".toList, .email, false, true⟩ initFieldState).1 = true := by
  decide

end Script
